import Mathlib

set_option maxHeartbeats 1000000
set_option maxRecDepth 8000

/-!
Verification development for the measurement-orchestration program
(stage_controller.py, spectrometer_controller.py, data_processor.py,
command_generator.py, main.py).  Each Python function relevant to the
properties below is embedded as an executable Lean definition; machine
floats are modelled by rationals, numpy uint16 arithmetic by explicit
arithmetic modulo 65536, and fallible calls by Option / explicit result
constructors.
-/

/-! ## Wire protocol (stage_controller.StageController.send_command) -/

/-- One serial exchange as seen by one iteration of the verified-mode retry
loop: either a decoded and stripped response string (the empty string stands
for a read timeout), or an exception raised inside the try block by the
serial layer (SerialException) or by anything else (decode errors etc.). -/
inductive WireEvent where
  | resp (s : String)
  | serialExn
  | otherExn
deriving DecidableEq

/-- Observable outcome of one send_command call: the returned string, the
number of retry-loop iterations performed (each iteration performs one write
attempt), the number of 0.5 s backoff sleeps executed, and the value left in
the channel field ser.timeout when the call returns. -/
structure SendResult where
  result : String
  attempts : ℕ
  sleeps : ℕ
  finalTimeout : ℚ
deriving DecidableEq

/-- The verified-mode retry loop of StageController.send_command.
Arguments: dflt is self.default_timeout, act the active ser.timeout for this
call (default or per-command override), ovr whether a per-command override
was given (timeout is not None), cmd the command string, ev the response
oracle indexed by the current retries counter.  The two trailing naturals are
the current retries counter and the remaining loop fuel
(maxRetries + 1 - retries); fuel 0 is the loop-exhaustion exit, which
returns the NACK sentinel without restoring ser.timeout. -/
def sendLoop (dflt act : ℚ) (ovr : Bool) (cmd : String) (ev : ℕ → WireEvent) :
    ℕ → ℕ → SendResult
  | _, 0 => ⟨"$NACK#", 0, 0, act⟩
  | r, fuel + 1 =>
    match ev r with
    | .serialExn => ⟨"ERROR: SerialException", 1, 0, act⟩
    | .otherExn => ⟨"ERROR: Exception", 1, 0, act⟩
    | .resp s =>
      if cmd = "$UARTLOOP#" then
        ⟨if s = "$UARTLOOP#" then "STM32 work properly" else "STM32 work not properly",
         1, 0, if ovr then dflt else act⟩
      else if s = "$OK#" then
        ⟨"$OK#", 1, 0, if ovr then dflt else act⟩
      else if s = "$NACK#" then
        let rest := sendLoop dflt act ovr cmd ev (r + 1) fuel
        ⟨rest.result, rest.attempts + 1, rest.sleeps + 1, rest.finalTimeout⟩
      else if s = "" then
        let rest := sendLoop dflt act ovr cmd ev (r + 1) fuel
        ⟨rest.result, rest.attempts + 1, rest.sleeps, rest.finalTimeout⟩
      else
        let rest := sendLoop dflt act ovr cmd ev (r + 1) fuel
        ⟨rest.result, rest.attempts + 1, rest.sleeps + 1, rest.finalTimeout⟩

/-- StageController.send_command.  initTimeout is the value ser.timeout holds
when the call starts (returned unchanged on paths that never touch it),
portOpen models self.ser and self.ser.is_open, fastMode models
self.fast_mode, fastWriteFails models an exception thrown by the single
fast-mode write.  In verified mode ser.timeout is first set to the default
and then, when a per-command override tmo is given, to the override. -/
def send_command (initTimeout dflt : ℚ) (maxRetries : ℕ)
    (portOpen fastMode fastWriteFails : Bool)
    (tmo : Option ℚ) (cmd : String) (ev : ℕ → WireEvent) : SendResult :=
  if portOpen = false then ⟨"ERROR: Port not open", 0, 0, initTimeout⟩
  else if fastMode = true then
    if fastWriteFails then ⟨"$NACK#", 1, 0, initTimeout⟩
    else ⟨"$OK#", 1, 0, initTimeout⟩
  else
    sendLoop dflt (tmo.getD dflt) tmo.isSome cmd ev 0 (maxRetries + 1)

/-- A response event that triggers a 0.5 s backoff sleep in the retry loop:
a NACK or an unexpected non-empty, non-OK response (a read timeout retries
without sleeping). -/
def backoffEv : WireEvent → Bool
  | .resp s => decide (s ≠ "") && decide (s ≠ "$OK#")
  | _ => false

/-- The closed set of strings send_command can return. -/
def allowedResults : List String :=
  ["$OK#", "$NACK#", "STM32 work properly", "STM32 work not properly",
   "ERROR: Port not open", "ERROR: SerialException", "ERROR: Exception"]

theorem sendLoop_all_fail (dflt act : ℚ) (ovr : Bool) (cmd : String)
    (ev : ℕ → WireEvent) (hcmd : cmd ≠ "$UARTLOOP#") :
    ∀ fuel r, (∀ k, r ≤ k → k < r + fuel → ∃ s, ev k = .resp s ∧ s ≠ "$OK#") →
      sendLoop dflt act ovr cmd ev r fuel =
        ⟨"$NACK#", fuel, ((List.range' r fuel).filter fun k => backoffEv (ev k)).length, act⟩ := by
  intro fuel
  induction fuel with
  | zero => intro r _; rfl
  | succ n ih =>
    intro r hall
    obtain ⟨s, hs, hsok⟩ := hall r (le_refl r) (by omega)
    have hrec := ih (r + 1) (fun k hk1 hk2 => hall k (by omega) (by omega))
    simp only [sendLoop, hs, if_neg hcmd, if_neg hsok]
    by_cases hnack : s = "$NACK#"
    · simp only [if_pos hnack, hrec, List.range']
      simp [List.filter, backoffEv, hs, hnack]
    · by_cases hempty : s = ""
      · simp only [if_neg hnack, if_pos hempty, hrec, List.range']
        simp [List.filter, backoffEv, hs, hempty]
      · simp only [if_neg hnack, if_neg hempty, hrec, List.range']
        simp [List.filter, backoffEv, hs, hempty, hsok]

theorem sendLoop_result_mem (dflt act : ℚ) (ovr : Bool) (cmd : String)
    (ev : ℕ → WireEvent) :
    ∀ fuel r, (sendLoop dflt act ovr cmd ev r fuel).result ∈ allowedResults := by
  intro fuel
  induction fuel with
  | zero => intro r; simp [sendLoop, allowedResults]
  | succ n ih =>
    intro r
    simp only [sendLoop]
    cases ev r with
    | serialExn => simp [allowedResults]
    | otherExn => simp [allowedResults]
    | resp s =>
      by_cases h1 : cmd = "$UARTLOOP#"
      · by_cases h2 : s = "$UARTLOOP#" <;> simp [h1, h2, allowedResults]
      · by_cases h2 : s = "$OK#"
        · simp [h1, h2, allowedResults]
        · by_cases h3 : s = "$NACK#"
          · simpa [h1, h2, h3] using ih (r + 1)
          · by_cases h4 : s = ""
            · simpa [h1, h2, h3, h4] using ih (r + 1)
            · simpa [h1, h2, h3, h4] using ih (r + 1)

theorem sendLoop_timeout (dflt act : ℚ) (ovr : Bool) (cmd : String)
    (ev : ℕ → WireEvent) :
    ∀ fuel r,
      (((sendLoop dflt act ovr cmd ev r fuel).result = "$OK#" ∨
        (sendLoop dflt act ovr cmd ev r fuel).result = "STM32 work properly" ∨
        (sendLoop dflt act ovr cmd ev r fuel).result = "STM32 work not properly") →
          (sendLoop dflt act ovr cmd ev r fuel).finalTimeout = (if ovr then dflt else act)) ∧
      (((sendLoop dflt act ovr cmd ev r fuel).result = "$NACK#" ∨
        (sendLoop dflt act ovr cmd ev r fuel).result = "ERROR: SerialException" ∨
        (sendLoop dflt act ovr cmd ev r fuel).result = "ERROR: Exception") →
          (sendLoop dflt act ovr cmd ev r fuel).finalTimeout = act) := by
  intro fuel
  induction fuel with
  | zero =>
    intro r
    constructor
    · intro h; simp [sendLoop] at h
    · intro _; rfl
  | succ n ih =>
    intro r
    simp only [sendLoop]
    cases ev r with
    | serialExn =>
      constructor
      · intro h; simp at h
      · intro _; rfl
    | otherExn =>
      constructor
      · intro h; simp at h
      · intro _; rfl
    | resp s =>
      by_cases h1 : cmd = "$UARTLOOP#"
      · by_cases h2 : s = "$UARTLOOP#"
        · constructor
          · intro _; simp [h1, h2]
          · intro h; simp [h1, h2] at h
        · constructor
          · intro _; simp [h1, h2]
          · intro h; simp [h1, h2] at h
      · by_cases h2 : s = "$OK#"
        · constructor
          · intro _; simp [h1, h2]
          · intro h; simp [h1, h2] at h
        · by_cases h3 : s = "$NACK#"
          · simpa [h1, h2, h3] using ih (r + 1)
          · by_cases h4 : s = ""
            · simpa [h1, h2, h3, h4] using ih (r + 1)
            · simpa [h1, h2, h3, h4] using ih (r + 1)

theorem sendLoop_loopback_one_attempt (dflt act : ℚ) (ovr : Bool)
    (ev : ℕ → WireEvent) (fuel r : ℕ) (hf : 1 ≤ fuel) :
    (sendLoop dflt act ovr "$UARTLOOP#" ev r fuel).attempts = 1 := by
  obtain ⟨n, rfl⟩ : ∃ n, fuel = n + 1 := ⟨fuel - 1, by omega⟩
  simp only [sendLoop]
  cases ev r with
  | serialExn => rfl
  | otherExn => rfl
  | resp s => simp

/-- The serial channel as send_command sees it: the timeout attribute,
every other persistent configuration attribute (port, baud rate, parity,
stop bits, ...) collected abstractly in otherConfig, and the two transient
I/O buffers. -/
structure Channel (alpha : Type) where
  timeout : ℚ
  otherConfig : alpha
  inBuffer : List String
  outBuffer : List String

/-- The channel-mutating statements occurring in the body of send_command:
a ser.timeout assignment, the two buffer resets, and the command write.
These are the only attribute writes on the channel object anywhere in the
function body; no other channel attribute is ever assigned. -/
inductive ChannelOp where
  | setTimeout (t : ℚ)
  | resetInput
  | resetOutput
  | writeCmd (cmd : String)
deriving DecidableEq

/-- Effect of one channel-mutating statement on the channel. -/
def applyOp {alpha : Type} (ch : Channel alpha) : ChannelOp → Channel alpha
  | .setTimeout t => { ch with timeout := t }
  | .resetInput => { ch with inBuffer := [] }
  | .resetOutput => { ch with outBuffer := [] }
  | .writeCmd c => { ch with outBuffer := ch.outBuffer ++ [c] }

/-- Effect of a sequence of channel-mutating statements, in program order. -/
def applyOps {alpha : Type} (ch : Channel alpha) (ops : List ChannelOp) :
    Channel alpha :=
  ops.foldl applyOp ch

/-- The channel-mutating statements executed by the verified-mode retry
loop, in program order: each iteration resets both buffers and writes the
command, the OK and loopback return paths restore the default timeout when
an override is active, and the exception and loop-exhaustion return paths
mutate nothing further. -/
def sendLoopOps (dflt : ℚ) (ovr : Bool) (cmd : String) (ev : ℕ → WireEvent) :
    ℕ → ℕ → List ChannelOp
  | _, 0 => []
  | r, fuel + 1 =>
    [ChannelOp.resetInput, ChannelOp.resetOutput, ChannelOp.writeCmd cmd] ++
      (match ev r with
       | .serialExn => []
       | .otherExn => []
       | .resp s =>
         if cmd = "$UARTLOOP#" then
           if ovr then [ChannelOp.setTimeout dflt] else []
         else if s = "$OK#" then
           if ovr then [ChannelOp.setTimeout dflt] else []
         else if s = "$NACK#" then sendLoopOps dflt ovr cmd ev (r + 1) fuel
         else if s = "" then sendLoopOps dflt ovr cmd ev (r + 1) fuel
         else sendLoopOps dflt ovr cmd ev (r + 1) fuel)

/-- The channel-mutating statements executed by one send_command call: none
with the port closed, the single write in fast mode, and in verified mode
the entry reset of ser.timeout to the default, the optional per-command
override assignment, then the retry loop. -/
def send_command_ops (dflt : ℚ) (maxRetries : ℕ) (portOpen fastMode : Bool)
    (tmo : Option ℚ) (cmd : String) (ev : ℕ → WireEvent) : List ChannelOp :=
  if portOpen = false then []
  else if fastMode = true then [ChannelOp.writeCmd cmd]
  else
    [ChannelOp.setTimeout dflt] ++
      (match tmo with
       | none => []
       | some t => [ChannelOp.setTimeout t]) ++
      sendLoopOps dflt tmo.isSome cmd ev 0 (maxRetries + 1)

theorem applyOp_otherConfig {alpha : Type} (ch : Channel alpha)
    (op : ChannelOp) : (applyOp ch op).otherConfig = ch.otherConfig := by
  cases op <;> rfl

theorem applyOps_otherConfig {alpha : Type} :
    ∀ (ops : List ChannelOp) (ch : Channel alpha),
      (applyOps ch ops).otherConfig = ch.otherConfig := by
  intro ops
  induction ops with
  | nil => intro ch; rfl
  | cons op t ih =>
    intro ch
    show (applyOps (applyOp ch op) t).otherConfig = ch.otherConfig
    rw [ih (applyOp ch op), applyOp_otherConfig]

theorem applyOps_append {alpha : Type} (ch : Channel alpha)
    (a b : List ChannelOp) :
    applyOps ch (a ++ b) = applyOps (applyOps ch a) b := by
  rw [applyOps, applyOps, applyOps, List.foldl_append]

theorem sendLoopOps_timeout {alpha : Type} (dflt act : ℚ) (ovr : Bool)
    (cmd : String) (ev : ℕ → WireEvent) :
    ∀ fuel r (ch : Channel alpha), ch.timeout = act →
      (applyOps ch (sendLoopOps dflt ovr cmd ev r fuel)).timeout =
        (sendLoop dflt act ovr cmd ev r fuel).finalTimeout := by
  intro fuel
  induction fuel with
  | zero => intro r ch h; exact h
  | succ n ih =>
    intro r ch h
    rw [sendLoopOps, applyOps_append]
    have h2 : (applyOps ch
        [ChannelOp.resetInput, ChannelOp.resetOutput,
         ChannelOp.writeCmd cmd]).timeout = act := h
    rw [sendLoop]
    cases hev : ev r with
    | serialExn => exact h2
    | otherExn => exact h2
    | resp s =>
      dsimp only
      by_cases h1 : cmd = "$UARTLOOP#"
      · rw [if_pos h1, if_pos h1]
        by_cases hovr : ovr
        · rw [if_pos hovr, if_pos hovr]
          rfl
        · rw [if_neg hovr, if_neg hovr]
          exact h2
      · rw [if_neg h1, if_neg h1]
        by_cases h2ok : s = "$OK#"
        · rw [if_pos h2ok, if_pos h2ok]
          by_cases hovr : ovr
          · rw [if_pos hovr, if_pos hovr]
            rfl
          · rw [if_neg hovr, if_neg hovr]
            exact h2
        · rw [if_neg h2ok, if_neg h2ok]
          by_cases h3 : s = "$NACK#"
          · rw [if_pos h3, if_pos h3]
            exact ih (r + 1) _ h2
          · rw [if_neg h3, if_neg h3]
            by_cases h4 : s = ""
            · rw [if_pos h4, if_pos h4]
              exact ih (r + 1) _ h2
            · rw [if_neg h4, if_neg h4]
              exact ih (r + 1) _ h2

theorem send_command_ops_timeout_verified {alpha : Type} (initT dflt : ℚ)
    (maxRetries : ℕ) (tmo : Option ℚ) (cmd : String) (ev : ℕ → WireEvent)
    (ch : Channel alpha) :
    (applyOps ch (send_command_ops dflt maxRetries true false tmo cmd ev)).timeout
      = (send_command initT dflt maxRetries true false false tmo cmd ev).finalTimeout := by
  simp only [send_command_ops, send_command,
    if_neg (by decide : ¬(true = false)), if_neg (by decide : ¬(false = true))]
  cases tmo with
  | none =>
    rw [applyOps_append, applyOps_append]
    exact sendLoopOps_timeout dflt dflt false cmd ev (maxRetries + 1) 0 _ rfl
  | some t =>
    rw [applyOps_append, applyOps_append]
    exact sendLoopOps_timeout dflt t true cmd ev (maxRetries + 1) 0 _ rfl

/-- Claim C2: in verified mode, for every command whose every response is
NACK, empty (timeout), or unexpected, send_command performs exactly
maxRetries + 1 total send attempts before returning the NACK-equivalent
failure outcome, with a 0.5 s backoff sleep after each NACK or unexpected
response (none after a timeout). -/
theorem claim_C2_retry_exhaustion (initT dflt : ℚ) (maxRetries : ℕ)
    (tmo : Option ℚ) (cmd : String) (ev : ℕ → WireEvent)
    (hcmd : cmd ≠ "$UARTLOOP#")
    (hev : ∀ k, k ≤ maxRetries → ∃ s, ev k = .resp s ∧ s ≠ "$OK#") :
    send_command initT dflt maxRetries true false false tmo cmd ev =
      ⟨"$NACK#", maxRetries + 1,
       ((List.range (maxRetries + 1)).filter fun k => backoffEv (ev k)).length,
       tmo.getD dflt⟩ := by
  have h := sendLoop_all_fail dflt (tmo.getD dflt) tmo.isSome cmd ev hcmd
    (maxRetries + 1) 0 (fun k _ hk2 => hev k (by omega))
  simp only [send_command, if_neg (by decide : ¬(true = false)),
    if_neg (by decide : ¬(false = true)), h, List.range_eq_range']

/-- Witness for claim C2 with the default max_retries = 3: four attempts,
four backoff sleeps, NACK-equivalent result. -/
theorem claim_C2_retry_exhaustion_witness :
    send_command 2 2 3 true false false none "$MLS10#" (fun _ => .resp "$NACK#") =
      ⟨"$NACK#", 4, 4, 2⟩ := by
  rw [claim_C2_retry_exhaustion 2 2 3 none "$MLS10#" (fun _ => .resp "$NACK#")
    (by decide) (fun k _ => ⟨"$NACK#", rfl, by decide⟩)]
  decide

/-- Counterexample for claim C3: a verified-mode call with a per-command
timeout override of 15 s whose every response is NACK exhausts its retries
and returns with ser.timeout still equal to 15, not restored to the default
of 2: the retry-exhaustion return path does not restore the channel
timeout. -/
theorem claim_C3_counterexample :
    (send_command 2 2 3 true false false (some 15) "$MLS100#"
        (fun _ => .resp "$NACK#")).result = "$NACK#" ∧
    (send_command 2 2 3 true false false (some 15) "$MLS100#"
        (fun _ => .resp "$NACK#")).finalTimeout = 15 ∧
    (15 : ℚ) ≠ 2 := by
  refine ⟨?_, ?_, by norm_num⟩ <;> decide

/-- Claim C3 (amended): in verified mode with a per-command timeout
override, the channel timeout is restored to the default before returning on
the success and loopback return paths; on the retry-exhaustion and exception
return paths it is left at the override value (it is only reset at the entry
of the next verified-mode call); and no other channel configuration is
changed persistently: over the sequence of channel-mutating statements the
call executes (whose timeout effect provably agrees with the call result),
every channel attribute other than ser.timeout is left exactly as it was. -/
theorem claim_C3_timeout_after_override {alpha : Type} (initT dflt t : ℚ)
    (maxRetries : ℕ) (cmd : String) (ev : ℕ → WireEvent) (ch : Channel alpha) :
    (((send_command initT dflt maxRetries true false false (some t) cmd ev).result = "$OK#" ∨
      (send_command initT dflt maxRetries true false false (some t) cmd ev).result =
        "STM32 work properly" ∨
      (send_command initT dflt maxRetries true false false (some t) cmd ev).result =
        "STM32 work not properly") →
        (send_command initT dflt maxRetries true false false (some t) cmd ev).finalTimeout
          = dflt) ∧
    (((send_command initT dflt maxRetries true false false (some t) cmd ev).result = "$NACK#" ∨
      (send_command initT dflt maxRetries true false false (some t) cmd ev).result =
        "ERROR: SerialException" ∨
      (send_command initT dflt maxRetries true false false (some t) cmd ev).result =
        "ERROR: Exception") →
        (send_command initT dflt maxRetries true false false (some t) cmd ev).finalTimeout
          = t) ∧
    (applyOps ch (send_command_ops dflt maxRetries true false (some t) cmd ev)).otherConfig
      = ch.otherConfig ∧
    (applyOps ch (send_command_ops dflt maxRetries true false (some t) cmd ev)).timeout
      = (send_command initT dflt maxRetries true false false (some t) cmd ev).finalTimeout := by
  refine ⟨?_, ?_, applyOps_otherConfig _ ch,
    send_command_ops_timeout_verified initT dflt maxRetries (some t) cmd ev ch⟩
  · have h := (sendLoop_timeout dflt ((some t).getD dflt) (some t).isSome cmd ev
      (maxRetries + 1) 0).1
    simp only [send_command, if_neg (by decide : ¬(true = false)),
      if_neg (by decide : ¬(false = true))]
    simpa using h
  · have h := (sendLoop_timeout dflt ((some t).getD dflt) (some t).isSome cmd ev
      (maxRetries + 1) 0).2
    simp only [send_command, if_neg (by decide : ¬(true = false)),
      if_neg (by decide : ¬(false = true))]
    simpa using h

/-- Witness for the amended claim C3: a successful call restores the
default timeout of 2 after an override of 15, and the channel configuration
other than the timeout (here the abstract value 42) is untouched. -/
theorem claim_C3_timeout_after_override_witness :
    (send_command 1 2 3 true false false (some 15) "$MLS10#"
        (fun _ => .resp "$OK#")).finalTimeout = 2 ∧
    (applyOps (⟨1, 42, [], []⟩ : Channel ℕ)
        (send_command_ops 2 3 true false (some 15) "$MLS10#"
          (fun _ => .resp "$OK#"))).otherConfig = 42 := by
  exact ⟨(claim_C3_timeout_after_override 1 2 15 3 "$MLS10#"
      (fun _ => .resp "$OK#") (⟨1, 42, [], []⟩ : Channel ℕ)).1 (Or.inl (by decide)),
    (claim_C3_timeout_after_override 1 2 15 3 "$MLS10#"
      (fun _ => .resp "$OK#") (⟨1, 42, [], []⟩ : Channel ℕ)).2.2.1⟩

/-- Claim C10: send_command is total at its interface: for every mode,
port state, command, timeout override and response/exception behaviour it
returns a string from the closed seven-element set allowedResults, and a
loopback command in verified mode always returns after the first attempt,
with no retries regardless of the response. -/
theorem claim_C10_totality (initT dflt : ℚ) (maxRetries : ℕ)
    (portOpen fastMode fwf : Bool) (tmo : Option ℚ) (cmd : String)
    (ev : ℕ → WireEvent) :
    (send_command initT dflt maxRetries portOpen fastMode fwf tmo cmd ev).result
      ∈ allowedResults ∧
    (cmd = "$UARTLOOP#" → portOpen = true → fastMode = false →
      (send_command initT dflt maxRetries portOpen fastMode fwf tmo cmd ev).attempts = 1) := by
  constructor
  · cases portOpen with
    | false => simp [send_command, allowedResults]
    | true =>
      cases fastMode with
      | true => cases fwf <;> simp [send_command, allowedResults]
      | false =>
        simpa [send_command] using
          sendLoop_result_mem dflt (tmo.getD dflt) tmo.isSome cmd ev (maxRetries + 1) 0
  · intro hcmd hport hfast
    subst hcmd hport hfast
    simpa [send_command] using
      sendLoop_loopback_one_attempt dflt (tmo.getD dflt) tmo.isSome ev
        (maxRetries + 1) 0 (by omega)

/-- Witness for claim C10: a concrete loopback call in verified mode with a
NACK-answering device performs exactly one attempt, and its result is in the
allowed set. -/
theorem claim_C10_totality_witness :
    (send_command 2 2 3 true false false none "$UARTLOOP#"
        (fun _ => .resp "$NACK#")).result ∈ allowedResults ∧
    (send_command 2 2 3 true false false none "$UARTLOOP#"
        (fun _ => .resp "$NACK#")).attempts = 1 := by
  exact ⟨(claim_C10_totality 2 2 3 true false false none "$UARTLOOP#"
      (fun _ => .resp "$NACK#")).1,
    (claim_C10_totality 2 2 3 true false false none "$UARTLOOP#"
      (fun _ => .resp "$NACK#")).2 rfl rfl rfl⟩

/-! ## Frame decode (spectrometer_controller.SpectrometerController._process_frame) -/

/-- Combination of one high/low byte pair in numpy uint16 arithmetic:
(high << 4) | (low - 128), where the subtraction wraps modulo 65536 as it
does on np.uint16. -/
def combineSample (h l : ℕ) : ℕ :=
  ((h * 16) % 65536) ||| ((l + 65408) % 65536)

/-- The even-index elements of a list (frame[0][::2], the high-bit stream). -/
def deinterleaveHigh : List ℕ → List ℕ
  | [] => []
  | [a] => [a]
  | a :: _ :: t => a :: deinterleaveHigh t

/-- The odd-index elements of a list (frame[0][1::2], the low-bit stream). -/
def deinterleaveLow : List ℕ → List ℕ
  | [] => []
  | [_] => []
  | _ :: b :: t => b :: deinterleaveLow t

/-- SpectrometerController._process_frame on the raw byte row frame[0]:
split into the interleaved high/low streams, pad the low stream with one
zero when it is one element shorter than the high stream, and combine each
pair as (high << 4) | (low - 128) in uint16 arithmetic. -/
def process_frame (row : List ℕ) : List ℕ :=
  let high := deinterleaveHigh row
  let low0 := deinterleaveLow row
  let low := if low0.length < high.length then low0 ++ [0] else low0
  List.zipWith combineSample high low

/-- Modelled from the spec wording, for refinement comparison with
process_frame: walk the interleaved high/low pairs of the frame row,
reconstructing each sample as (high << 4) | (low - 128), and treat a final
unpaired high byte as paired with a padded zero low byte. -/
def decodeSpec : List ℕ → List ℕ
  | [] => []
  | [h] => [combineSample h 0]
  | h :: l :: t => combineSample h l :: decodeSpec t

theorem deinterleave_lengths :
    ∀ t : List ℕ, (deinterleaveLow t).length ≤ (deinterleaveHigh t).length ∧
      (deinterleaveHigh t).length ≤ (deinterleaveLow t).length + 1 := by
  intro t
  induction t using deinterleaveLow.induct with
  | case1 => simp [deinterleaveHigh, deinterleaveLow]
  | case2 a => simp [deinterleaveHigh, deinterleaveLow]
  | case3 a b t ih =>
    simp only [deinterleaveHigh, deinterleaveLow, List.length_cons]
    omega

theorem process_frame_cons (h l : ℕ) (t : List ℕ) :
    process_frame (h :: l :: t) = combineSample h l :: process_frame t := by
  simp only [process_frame, deinterleaveHigh, deinterleaveLow, List.length_cons]
  by_cases hc : (deinterleaveLow t).length < (deinterleaveHigh t).length
  · rw [if_pos (by omega), if_pos hc]
    simp [List.zipWith]
  · rw [if_neg (by omega), if_neg hc]
    simp [List.zipWith]

theorem combineSample_lt (h l : ℕ) : combineSample h l < 65536 := by
  have h1 : (h * 16) % 65536 < 2 ^ 16 := by
    calc (h * 16) % 65536 < 65536 := Nat.mod_lt _ (by omega)
      _ = 2 ^ 16 := by norm_num
  have h2 : (l + 65408) % 65536 < 2 ^ 16 := by
    calc (l + 65408) % 65536 < 65536 := Nat.mod_lt _ (by omega)
      _ = 2 ^ 16 := by norm_num
  calc combineSample h l < 2 ^ 16 := Nat.or_lt_two_pow h1 h2
    _ = 65536 := by norm_num

theorem decodeSpec_mem_lt : ∀ row : List ℕ, ∀ y ∈ decodeSpec row, y < 65536 := by
  intro row
  induction row using decodeSpec.induct with
  | case1 => simp [decodeSpec]
  | case2 h =>
    intro y hy
    simp only [decodeSpec, List.mem_singleton] at hy
    subst hy
    exact combineSample_lt h 0
  | case3 h l t ih =>
    intro y hy
    rcases List.mem_cons.mp hy with hy | hy
    · subst hy; exact combineSample_lt h l
    · exact ih y hy

/-- Claim C5: the frame decode is the deterministic function of the frame
bytes that reconstructs each sample over the interleaved high/low pairs as
(high << 4) | (low - 128) in 16-bit arithmetic, padding the low-bit stream
with a single zero when it is one element shorter than the high-bit stream;
and with byte-valued input every decoded sample fits in 16 bits (the
promotion avoids overflow). -/
theorem claim_C5_decode (row : List ℕ) :
    process_frame row = decodeSpec row ∧
    ((∀ x ∈ row, x < 256) → ∀ y ∈ process_frame row, y < 65536) := by
  have heq : process_frame row = decodeSpec row := by
    induction row using decodeSpec.induct with
    | case1 => rfl
    | case2 h => rfl
    | case3 h l t ih => rw [process_frame_cons, decodeSpec, ih]
  exact ⟨heq, fun _ y hy => decodeSpec_mem_lt row y (heq ▸ hy)⟩

/-- Witness for claim C5: a concrete five-byte frame row (odd length, so the
low stream is padded) decodes to the predicted samples, all below 65536. -/
theorem claim_C5_decode_witness :
    process_frame [200, 130, 10, 128, 7] = decodeSpec [200, 130, 10, 128, 7] ∧
    (∀ y ∈ process_frame [200, 130, 10, 128, 7], y < 65536) ∧
    process_frame [200, 130, 10, 128, 7] = [3202, 160, 65520] := by
  refine ⟨(claim_C5_decode [200, 130, 10, 128, 7]).1,
    (claim_C5_decode [200, 130, 10, 128, 7]).2 (by decide), by decide⟩

/-! ## Autoscaling proportional step (main.perform_autoscaling, step body) -/

/-- Python int(): truncation toward zero on a rational. -/
def truncQ (q : ℚ) : ℤ := if 0 ≤ q then ⌊q⌋ else ⌈q⌉

/-- The proportional correction factor: target / measured when the measured
intensity is positive, otherwise the fixed factor 2 (double the exposure). -/
def autoscalingFactor (ias target : ℚ) : ℚ :=
  if ias > 0 then target / ias else 2

/-- The exposure update of one non-converged autoscaling iteration:
exp := max(1, min(int(exp * factor), 899)). -/
def autoscalingStep (exp : ℤ) (ias target : ℚ) : ℤ :=
  max 1 (min 899 (truncQ ((exp : ℚ) * autoscalingFactor ias target)))

/-- Outcome of one autoscaling loop iteration. -/
inductive AutoscaleOutcome where
  | converged
  | adjusted (newExp : ℤ)
deriving DecidableEq

/-- One iteration of the autoscaling loop in perform_autoscaling: stop
converged when the measured intensity is within the threshold of the
target, else push the clamped proportional exposure update. -/
def autoscalingIter (exp : ℤ) (ias target threshold : ℚ) : AutoscaleOutcome :=
  if |ias - target| ≤ threshold then .converged
  else .adjusted (autoscalingStep exp ias target)

/-- Counterexample for claim C4: the code truncates (Python int()) rather
than rounding.  With exposure 100, measured 3, target 2 the code computes
int(100 * (2 / 3)) = 66 while the claimed clamp(round(100 * (2 / 3)), 1, 899)
is 67. -/
theorem claim_C4_counterexample :
    autoscalingStep 100 3 2 = 66 ∧
    max 1 (min 899 (round ((100 : ℚ) * (2 / 3)))) = 67 := by
  constructor
  · show max 1 (min 899 (truncQ ((100 : ℚ) * autoscalingFactor 3 2))) = 66
    rw [autoscalingFactor, if_pos (by norm_num : (3 : ℚ) > 0)]
    rw [truncQ, if_pos (by norm_num)]
    rw [show ⌊(100 : ℚ) * (2 / 3)⌋ = 66 from by norm_num [Int.floor_eq_iff]]
    decide
  · norm_num [round_eq, Int.floor_eq_iff]

/-- Claim C4 (amended): for every autoscaler iteration, if
|measured - target| <= threshold the loop stops converged; otherwise the new
exposure equals clamp(trunc(exposure * factor), 1, 899) where trunc is
Python int() truncation, the factor is target / measured for positive
measured and the fixed value 2 when measured <= 0; the updated exposure
always lies in [1, 899]; and in particular measured 50, target 100, exposure
100 yields 200, while an exposure already at 899 with a further increase
requested stays 899. -/
theorem claim_C4_autoscaling_step (exp : ℤ) (ias target threshold : ℚ) :
    (|ias - target| ≤ threshold → autoscalingIter exp ias target threshold = .converged) ∧
    (¬ |ias - target| ≤ threshold →
      autoscalingIter exp ias target threshold =
        .adjusted (max 1 (min 899 (truncQ ((exp : ℚ) *
          (if ias > 0 then target / ias else 2)))))) ∧
    (ias ≤ 0 → autoscalingFactor ias target = 2) ∧
    (1 ≤ autoscalingStep exp ias target ∧ autoscalingStep exp ias target ≤ 899) ∧
    autoscalingIter 100 50 100 0 = .adjusted 200 ∧
    autoscalingIter 899 50 100 0 = .adjusted 899 := by
  have hstep1 : autoscalingStep 100 50 100 = 200 := by
    show max 1 (min 899 (truncQ ((100 : ℚ) * autoscalingFactor 50 100))) = 200
    rw [autoscalingFactor, if_pos (by norm_num : (50 : ℚ) > 0)]
    rw [truncQ, if_pos (by norm_num)]
    rw [show ⌊(100 : ℚ) * (100 / 50)⌋ = 200 from by norm_num]
    decide
  have hstep2 : autoscalingStep 899 50 100 = 899 := by
    show max 1 (min 899 (truncQ ((899 : ℚ) * autoscalingFactor 50 100))) = 899
    rw [autoscalingFactor, if_pos (by norm_num : (50 : ℚ) > 0)]
    rw [truncQ, if_pos (by norm_num)]
    rw [show ⌊(899 : ℚ) * (100 / 50)⌋ = 1798 from by norm_num]
    decide
  refine ⟨fun h => by simp [autoscalingIter, h], fun h => by
    simp [autoscalingIter, h, autoscalingStep, autoscalingFactor], fun h => ?_,
    ⟨le_max_left _ _, ?_⟩, ?_, ?_⟩
  · simp [autoscalingFactor, not_lt.mpr h]
  · simp only [autoscalingStep, max_le_iff]
    exact ⟨by norm_num, min_le_left _ _⟩
  · rw [autoscalingIter, if_neg (by norm_num [abs_le]), hstep1]
  · rw [autoscalingIter, if_neg (by norm_num [abs_le]), hstep2]

/-- Witness for the amended claim C4: the spec's own worked example, with a
convergence case discharged as well. -/
theorem claim_C4_autoscaling_step_witness :
    autoscalingIter 100 50 100 0 = .adjusted 200 ∧
    autoscalingIter 100 100 100 5 = .converged := by
  exact ⟨(claim_C4_autoscaling_step 100 50 100 0).2.2.2.2.1,
    (claim_C4_autoscaling_step 100 100 100 5).1 (by norm_num)⟩

/-! ## Averaged acquisition (spectrometer_controller.SpectrometerController.read_spectrum) -/

/-- The collection loop of read_spectrum: gather the results of k successive
single-frame reads starting at read index i into a list, aborting with none
as soon as one read fails. -/
def collectReads (reads : ℕ → Option (List ℚ)) : ℕ → ℕ → Option (List (List ℚ))
  | _, 0 => some []
  | i, k + 1 =>
    match reads i with
    | none => none
    | some s => (collectReads reads (i + 1) k).map (fun l => s :: l)

/-- Elementwise sum of a list of spectra (np.array of the collected spectra
summed along axis 0; read_spectrum never applies it to an empty list). -/
def sumSpectra : List (List ℚ) → List ℚ
  | [] => []
  | [s] => s
  | s :: t => List.zipWith (fun a b => a + b) s (sumSpectra t)

/-- SpectrometerController.read_spectrum: None for a non-positive averaging
count, None as soon as any of the n single reads fails, otherwise the
elementwise mean of the n collected spectra. -/
def read_spectrum (n : ℤ) (reads : ℕ → Option (List ℚ)) : Option (List ℚ) :=
  if n ≤ 0 then none
  else
    match collectReads reads 0 n.toNat with
    | none => none
    | some l =>
      if l.isEmpty then none
      else some ((sumSpectra l).map (fun v => v / (l.length : ℚ)))

theorem collectReads_eq_none_iff (reads : ℕ → Option (List ℚ)) :
    ∀ k i, collectReads reads i k = none ↔ ∃ j, j < k ∧ reads (i + j) = none := by
  intro k
  induction k with
  | zero => intro i; simp [collectReads]
  | succ m ih =>
    intro i
    rw [collectReads]
    cases hr : reads i with
    | none =>
      simp only [true_iff]
      exact ⟨0, by omega, by simpa using hr⟩
    | some s =>
      rw [Option.map_eq_none']
      constructor
      · intro h
        obtain ⟨j, hj, hrj⟩ := (ih (i + 1)).mp h
        exact ⟨j + 1, by omega, by rw [show i + (j + 1) = i + 1 + j by omega]; exact hrj⟩
      · rintro ⟨j, hj, hrj⟩
        cases j with
        | zero =>
          rw [Nat.add_zero, hr] at hrj
          cases hrj
        | succ j0 =>
          refine (ih (i + 1)).mpr ⟨j0, by omega, ?_⟩
          rw [show i + 1 + j0 = i + (j0 + 1) by omega]
          exact hrj

theorem collectReads_eq_some (reads : ℕ → Option (List ℚ)) :
    ∀ k i l, collectReads reads i k = some l →
      l.length = k ∧ ∀ j, j < k → reads (i + j) = some (l.getD j []) := by
  intro k
  induction k with
  | zero =>
    intro i l h
    rw [collectReads] at h
    cases h
    exact ⟨rfl, fun j hj => absurd hj (by omega)⟩
  | succ m ih =>
    intro i l h
    rw [collectReads] at h
    cases hr : reads i with
    | none => rw [hr] at h; cases h
    | some s =>
      rw [hr] at h
      obtain ⟨l0, hl0, rfl⟩ := Option.map_eq_some'.mp h
      obtain ⟨hlen, hread⟩ := ih (i + 1) l0 hl0
      refine ⟨by simpa using hlen, fun j hj => ?_⟩
      cases j with
      | zero => simpa using hr
      | succ j0 =>
        rw [show i + (j0 + 1) = i + 1 + j0 by omega]
        simpa using hread j0 (by omega)

/-- Claim C9: averaged acquisition is all-or-nothing: read_spectrum n
returns None when n is non-positive or when any one of the n single-frame
reads fails, and otherwise returns the elementwise mean of exactly n
successful single-frame spectra; it never averages fewer than n frames. -/
theorem claim_C9_all_or_nothing (n : ℤ) (reads : ℕ → Option (List ℚ)) :
    (n ≤ 0 → read_spectrum n reads = none) ∧
    (∀ j, j < n.toNat → reads j = none → read_spectrum n reads = none) ∧
    (0 < n → (∀ j, j < n.toNat → reads j ≠ none) →
      ∃ l, collectReads reads 0 n.toNat = some l ∧ l.length = n.toNat ∧
        (∀ j, j < n.toNat → reads j = some (l.getD j [])) ∧
        read_spectrum n reads =
          some ((sumSpectra l).map (fun v => v / (n.toNat : ℚ)))) := by
  refine ⟨fun h => by simp [read_spectrum, h], fun j hj hnone => ?_, fun hpos hok => ?_⟩
  · have hcoll : collectReads reads 0 n.toNat = none :=
      (collectReads_eq_none_iff reads n.toNat 0).mpr ⟨j, hj, by simpa using hnone⟩
    by_cases hn : n ≤ 0
    · simp [read_spectrum, hn]
    · rw [read_spectrum, if_neg hn, hcoll]
  · have hne : collectReads reads 0 n.toNat ≠ none := by
      intro hnone
      obtain ⟨j, hj, hrj⟩ := (collectReads_eq_none_iff reads n.toNat 0).mp hnone
      exact hok j hj (by simpa using hrj)
    obtain ⟨l, hl⟩ := Option.ne_none_iff_exists'.mp hne
    obtain ⟨hlen, hread⟩ := collectReads_eq_some reads n.toNat 0 l hl
    have hlpos : l ≠ [] := by
      intro hnil
      rw [hnil] at hlen
      simp at hlen
      omega
    refine ⟨l, hl, hlen, fun j hj => by simpa using hread j hj, ?_⟩
    rw [read_spectrum, if_neg (by omega : ¬ n ≤ 0), hl]
    show (if l.isEmpty then (none : Option (List ℚ))
        else some ((sumSpectra l).map (fun v => v / (l.length : ℚ)))) = _
    rw [if_neg (by simpa [List.isEmpty_iff] using hlpos), hlen]

/-- Witness for claim C9: with two reads requested and the first read
failing, the averaged read returns the failure sentinel. -/
theorem claim_C9_all_or_nothing_witness :
    read_spectrum 2 (fun _ => none) = none := by
  exact (claim_C9_all_or_nothing 2 (fun _ => none)).2.1 0 (by decide) rfl

/-! ## Command generation (command_generator.generate_commands) and the
per-cycle command loop of main.main -/

/-- The command grammar, one constructor per recognized command string:
smpd n stands for the string SMPD followed by n, ori for the home command
ORI, sld c s for the lamp command SLD with channel c and state s, wait n for
WAIT with duration n, mls n for the move command MLS by n pulses, srd for
the acquire command SRD, uartloop for the loopback self-test UARTLOOP. -/
inductive Cmd where
  | smpd (n : ℤ)
  | ori
  | sld (channel state : ℤ)
  | wait (n : ℤ)
  | mls (n : ℤ)
  | srd
  | uartloop
deriving DecidableEq

/-- The parameters generate_commands reads from the validated config. -/
structure GenParams where
  smpd : ℤ
  autoscaling : ℤ
  lamp : ℤ
  waitTime : ℤ
  offset : ℚ
  pulseDistance : ℚ
  pulsesPerPoint : ℤ
  pointsPerCycle : ℕ
deriving DecidableEq

/-- command_generator.generate_commands: sampling-parameter setup, home,
lamp-on (only when autoscaling is disabled), wait, optional offset move
(only when the offset is positive and spans at least 5 pulses), the
per-point move/acquire block repeated once per point (the move is omitted
when pulses-per-point is below 5), and the trailing wait, home, loopback
test and wait. -/
def generate_commands (p : GenParams) : List Cmd :=
  [Cmd.smpd p.smpd, Cmd.ori]
    ++ (if p.autoscaling = 0 then
          if p.lamp = 0 then [Cmd.sld 0 1]
          else if p.lamp = 1 then [Cmd.sld 1 1]
          else if p.lamp = 2 then [Cmd.sld 0 1, Cmd.sld 1 1]
          else []
        else [])
    ++ [Cmd.wait p.waitTime]
    ++ (if p.offset > 0 then
          if truncQ (p.offset / p.pulseDistance) ≥ 5 then
            [Cmd.mls (truncQ (p.offset / p.pulseDistance))]
          else []
        else [])
    ++ (List.replicate p.pointsPerCycle
          ((if p.pulsesPerPoint ≥ 5 then [Cmd.mls p.pulsesPerPoint] else [])
            ++ [Cmd.srd])).flatten
    ++ [Cmd.wait 2, Cmd.ori, Cmd.uartloop, Cmd.wait 2]

/-- State of the per-cycle command loop in main: the stored-point counter
srd_count, the number of acquisition attempts so far (indexing the
acquisition oracle), the result matrix spectral_data stored column-wise
(numPoints columns of 1280 rows, initialized by np.zeros), the log of
column indices actually written, and the commands dispatched to the stage
with their timeout override. -/
structure CycleState where
  srdCount : ℕ
  attempts : ℕ
  spectralData : List (List ℚ)
  writes : List ℕ
  sent : List (Cmd × Option ℤ)
deriving DecidableEq

/-- The zero-initialized per-cycle state: spectral_data = np.zeros((1280,
numPoints)), stored column-wise. -/
def initCycleState (numPoints : ℕ) : CycleState :=
  ⟨0, 0, List.replicate numPoints (List.replicate 1280 0), [], []⟩

/-- One iteration of the command loop in main.main: waits sleep, an acquire
command below capacity stores the averaged spectrum at column srd_count and
advances the counter only on success, an acquire command at capacity is
dropped with a log message, home and long moves (more than 20 pulses) are
dispatched with the extended 15 s timeout, and everything else with the
channel default. -/
def cycleStep (numPoints : ℕ) (oracle : ℕ → Option (List ℚ))
    (st : CycleState) : Cmd → CycleState
  | .wait _ => st
  | .srd =>
    if st.srdCount < numPoints then
      match oracle st.attempts with
      | some spec =>
        { st with
          spectralData := st.spectralData.set st.srdCount spec
          writes := st.writes ++ [st.srdCount]
          srdCount := st.srdCount + 1
          attempts := st.attempts + 1 }
      | none => { st with attempts := st.attempts + 1 }
    else st
  | .ori => { st with sent := st.sent ++ [(Cmd.ori, some 15)] }
  | .mls n =>
    if n > 20 then { st with sent := st.sent ++ [(Cmd.mls n, some 15)] }
    else { st with sent := st.sent ++ [(Cmd.mls n, none)] }
  | c => { st with sent := st.sent ++ [(c, none)] }

/-- The per-cycle command loop of main.main over a full command list. -/
def runCycle (numPoints : ℕ) (oracle : ℕ → Option (List ℚ))
    (cmds : List Cmd) : CycleState :=
  cmds.foldl (cycleStep numPoints oracle) (initCycleState numPoints)

/-- Loop invariant of the per-cycle command loop. -/
def CycleInv (numPoints : ℕ) (st : CycleState) : Prop :=
  st.srdCount ≤ numPoints ∧
  st.spectralData.length = numPoints ∧
  (∀ j ∈ st.writes, j < numPoints) ∧
  (∀ j, j < numPoints → j ∉ st.writes →
    st.spectralData.getD j [] = List.replicate 1280 0)

theorem list_set_getD_ne {α : Type} (x d : α) :
    ∀ (l : List α) (i j : ℕ), i ≠ j → (l.set i x).getD j d = l.getD j d := by
  intro l
  induction l with
  | nil => intro i j _; simp
  | cons a t ih =>
    intro i j h
    cases i with
    | zero =>
      cases j with
      | zero => omega
      | succ j0 => simp [List.set]
    | succ i0 =>
      cases j with
      | zero => simp [List.set]
      | succ j0 =>
        simp only [List.set, List.getD_cons_succ]
        exact ih i0 j0 (by omega)

theorem cycleStep_inv (numPoints : ℕ) (oracle : ℕ → Option (List ℚ))
    (st : CycleState) (c : Cmd) (h : CycleInv numPoints st) :
    CycleInv numPoints (cycleStep numPoints oracle st c) := by
  obtain ⟨h1, h2, h3, h4⟩ := h
  cases c with
  | wait n => exact ⟨h1, h2, h3, h4⟩
  | ori => exact ⟨h1, h2, h3, h4⟩
  | smpd n => exact ⟨h1, h2, h3, h4⟩
  | sld a b => exact ⟨h1, h2, h3, h4⟩
  | uartloop => exact ⟨h1, h2, h3, h4⟩
  | mls n =>
    by_cases hn : n > 20 <;> simp only [cycleStep, hn] <;> exact ⟨h1, h2, h3, h4⟩
  | srd =>
    by_cases hcap : st.srdCount < numPoints
    · rw [cycleStep, if_pos hcap]
      cases horacle : oracle st.attempts with
      | none => exact ⟨h1, h2, h3, h4⟩
      | some spec =>
        refine ⟨?_, ?_, ?_, ?_⟩
        · show st.srdCount + 1 ≤ numPoints
          omega
        · show (st.spectralData.set st.srdCount spec).length = numPoints
          simpa using h2
        · show ∀ j ∈ st.writes ++ [st.srdCount], j < numPoints
          intro j hj
          simp only [List.mem_append, List.mem_singleton] at hj
          rcases hj with hj | hj
          · exact h3 j hj
          · omega
        · show ∀ j, j < numPoints → j ∉ st.writes ++ [st.srdCount] →
            (st.spectralData.set st.srdCount spec).getD j [] = List.replicate 1280 0
          intro j hjlt hjnot
          simp only [List.mem_append, List.mem_singleton, not_or] at hjnot
          obtain ⟨hjold, hjne⟩ := hjnot
          rw [list_set_getD_ne _ _ _ _ _ (fun heq => hjne heq.symm)]
          exact h4 j hjlt hjold
    · rw [cycleStep, if_neg hcap]
      exact ⟨h1, h2, h3, h4⟩

theorem foldl_cycleStep_inv (numPoints : ℕ) (oracle : ℕ → Option (List ℚ)) :
    ∀ (cmds : List Cmd) (st : CycleState), CycleInv numPoints st →
      CycleInv numPoints (cmds.foldl (cycleStep numPoints oracle) st) := by
  intro cmds
  induction cmds with
  | nil => intro st h; exact h
  | cons c t ih =>
    intro st h
    exact ih _ (cycleStep_inv numPoints oracle st c h)

theorem getD_replicate_of_lt {α : Type} (x d : α) :
    ∀ (k j : ℕ), j < k → (List.replicate k x).getD j d = x := by
  intro k
  induction k with
  | zero => intro j h; omega
  | succ m ih =>
    intro j h
    cases j with
    | zero => rfl
    | succ j0 =>
      rw [List.replicate_succ, List.getD_cons_succ]
      exact ih j0 (by omega)

theorem initCycleState_inv (numPoints : ℕ) :
    CycleInv numPoints (initCycleState numPoints) := by
  refine ⟨Nat.zero_le _, ?_, ?_, ?_⟩
  · show (List.replicate numPoints (List.replicate 1280 (0 : ℚ))).length = numPoints
    exact List.length_replicate _ _
  · show ∀ j ∈ ([] : List ℕ), j < numPoints
    intro j hj
    cases hj
  · intro j hj _
    show (List.replicate numPoints (List.replicate 1280 (0 : ℚ))).getD j [] = _
    exact getD_replicate_of_lt _ _ _ _ hj

theorem runCycle_inv (numPoints : ℕ) (oracle : ℕ → Option (List ℚ))
    (cmds : List Cmd) : CycleInv numPoints (runCycle numPoints oracle cmds) :=
  foldl_cycleStep_inv numPoints oracle cmds _ (initCycleState_inv numPoints)

theorem cycleStep_srdCount_of_ne (numPoints : ℕ) (oracle : ℕ → Option (List ℚ))
    (st : CycleState) (c : Cmd) (h : c ≠ Cmd.srd) :
    (cycleStep numPoints oracle st c).srdCount = st.srdCount := by
  cases c with
  | wait n => rfl
  | ori => rfl
  | smpd n => rfl
  | sld a b => rfl
  | uartloop => rfl
  | mls n => rw [cycleStep]; split <;> rfl
  | srd => exact absurd rfl h

theorem foldl_srdCount_success (numPoints : ℕ) (oracle : ℕ → Option (List ℚ))
    (hok : ∀ k, oracle k ≠ none) :
    ∀ (cmds : List Cmd) (st : CycleState), st.srdCount ≤ numPoints →
      (cmds.foldl (cycleStep numPoints oracle) st).srdCount =
        min numPoints (st.srdCount + cmds.count Cmd.srd) := by
  intro cmds
  induction cmds with
  | nil =>
    intro st h
    simp only [List.foldl_nil, List.count_nil]
    omega
  | cons c t ih =>
    intro st h
    rw [List.foldl_cons]
    by_cases hc : c = Cmd.srd
    · subst hc
      by_cases hcap : st.srdCount < numPoints
      · obtain ⟨spec, hspec⟩ := Option.ne_none_iff_exists'.mp (hok st.attempts)
        rw [cycleStep, if_pos hcap, hspec]
        rw [ih _ (by show st.srdCount + 1 ≤ numPoints; omega)]
        rw [List.count_cons_self]
        show min numPoints (st.srdCount + 1 + t.count Cmd.srd) = _
        omega
      · rw [cycleStep, if_neg hcap]
        rw [ih st h, List.count_cons_self]
        omega
    · have hsrd := cycleStep_srdCount_of_ne numPoints oracle st c hc
      rw [ih _ (by rw [hsrd]; exact h), hsrd,
        List.count_cons_of_ne (fun heq => hc heq.symm)]

/-- Counterexample for claim C1: with one configured point and a single
acquire command, a run whose averaged read fails produces exactly the same
per-cycle output matrix (one all-zero column) as a run whose averaged read
succeeds with a valid all-zero spectrum; the unset point is a zero column,
not distinguishably absent, even though the two runs differ (no write ever
happened in the first). -/
theorem claim_C1_counterexample :
    (runCycle 1 (fun _ => none) [Cmd.srd]).spectralData =
      (runCycle 1 (fun _ => some (List.replicate 1280 0)) [Cmd.srd]).spectralData ∧
    (runCycle 1 (fun _ => none) [Cmd.srd]).writes = [] ∧
    (runCycle 1 (fun _ => some (List.replicate 1280 0)) [Cmd.srd]).writes = [0] :=
  ⟨rfl, rfl, rfl⟩

/-- Claim C1 (amended): when acquisition fails at a point or an extra
acquisition is skipped, the failure is logged and the stored-point counter
is not advanced, and the point's column in the per-cycle output matrix
retains the zero initialization of np.zeros; an unset point therefore
appears as an all-zero column, which is not distinguishable from a validly
measured all-zero spectrum. -/
theorem claim_C1_unset_points (numPoints : ℕ) (oracle : ℕ → Option (List ℚ))
    (cmds : List Cmd) :
    (runCycle numPoints oracle cmds).spectralData.length = numPoints ∧
    (∀ j, j < numPoints → j ∉ (runCycle numPoints oracle cmds).writes →
      (runCycle numPoints oracle cmds).spectralData.getD j [] =
        List.replicate 1280 0) :=
  ⟨(runCycle_inv numPoints oracle cmds).2.1,
   (runCycle_inv numPoints oracle cmds).2.2.2⟩

/-- Witness for the amended claim C1: with two configured points and one
failing acquire, the never-written column 1 is the zero column. -/
theorem claim_C1_unset_points_witness :
    (runCycle 2 (fun _ => none) [Cmd.srd]).spectralData.getD 1 [] =
      List.replicate 1280 0 :=
  (claim_C1_unset_points 2 (fun _ => none) [Cmd.srd]).2 1 (by omega) (by decide)

/-- Claim C7: for every command sequence, the cycle executor never writes a
spectrum to a column index at or above the configured point count: the
stored-point counter stays at most the point count after every prefix of
the command list, every written column index is below the point count, and
an acquire command arriving at capacity leaves the state unchanged (dropped,
not buffered). -/
theorem claim_C7_capacity (numPoints : ℕ) (oracle : ℕ → Option (List ℚ))
    (cmds : List Cmd) :
    (∀ i, (runCycle numPoints oracle (cmds.take i)).srdCount ≤ numPoints) ∧
    (∀ j ∈ (runCycle numPoints oracle cmds).writes, j < numPoints) ∧
    (∀ st : CycleState, numPoints ≤ st.srdCount →
      cycleStep numPoints oracle st Cmd.srd = st) := by
  refine ⟨fun i => (runCycle_inv numPoints oracle (cmds.take i)).1,
    (runCycle_inv numPoints oracle cmds).2.2.1, fun st hst => ?_⟩
  rw [cycleStep, if_neg (by omega)]

/-- Witness for claim C7: one configured point and two acquire commands
still leave the stored-point counter at most 1. -/
theorem claim_C7_capacity_witness :
    (runCycle 1 (fun _ => some (List.replicate 1280 0))
      [Cmd.srd, Cmd.srd]).srdCount ≤ 1 := by
  have h := (claim_C7_capacity 1 (fun _ => some (List.replicate 1280 0))
    [Cmd.srd, Cmd.srd]).1 2
  have htake : ([Cmd.srd, Cmd.srd].take 2) = [Cmd.srd, Cmd.srd] := rfl
  rw [htake] at h
  exact h

/-- Claim C8: for a 3-point, 1-cycle sweep with no offset, no autoscaling
and one lamp channel, the generated command sequence is exactly setup, home,
lamp-on, wait, three interleaved move+acquire pairs (acquire-only when
pulses-per-point is below 5), and a trailing wait, home, loopback test and
wait; it holds exactly 2 home commands, 3 acquire commands and 1 loopback
test, and executing it produces a result matrix with exactly 3 point
columns, all of them filled when every acquisition succeeds. -/
theorem claim_C8_three_point_cycle (p : GenParams) (oracle : ℕ → Option (List ℚ))
    (hpts : p.pointsPerCycle = 3) (hoff : p.offset = 0) (hauto : p.autoscaling = 0)
    (hlamp : p.lamp = 1) (hok : ∀ k, oracle k ≠ none) :
    generate_commands p =
      [Cmd.smpd p.smpd, Cmd.ori, Cmd.sld 1 1, Cmd.wait p.waitTime]
        ++ (if p.pulsesPerPoint ≥ 5 then
              [Cmd.mls p.pulsesPerPoint, Cmd.srd, Cmd.mls p.pulsesPerPoint, Cmd.srd,
               Cmd.mls p.pulsesPerPoint, Cmd.srd]
            else [Cmd.srd, Cmd.srd, Cmd.srd])
        ++ [Cmd.wait 2, Cmd.ori, Cmd.uartloop, Cmd.wait 2] ∧
    (generate_commands p).count Cmd.ori = 2 ∧
    (generate_commands p).count Cmd.srd = 3 ∧
    (generate_commands p).count Cmd.uartloop = 1 ∧
    (runCycle 3 oracle (generate_commands p)).spectralData.length = 3 ∧
    (runCycle 3 oracle (generate_commands p)).srdCount = 3 := by
  have heq : generate_commands p =
      [Cmd.smpd p.smpd, Cmd.ori, Cmd.sld 1 1, Cmd.wait p.waitTime]
        ++ (if p.pulsesPerPoint ≥ 5 then
              [Cmd.mls p.pulsesPerPoint, Cmd.srd, Cmd.mls p.pulsesPerPoint, Cmd.srd,
               Cmd.mls p.pulsesPerPoint, Cmd.srd]
            else [Cmd.srd, Cmd.srd, Cmd.srd])
        ++ [Cmd.wait 2, Cmd.ori, Cmd.uartloop, Cmd.wait 2] := by
    by_cases hp : p.pulsesPerPoint ≥ 5 <;>
      simp [generate_commands, hpts, hoff, hauto, hlamp, hp, List.replicate]
  have hcount_srd : (generate_commands p).count Cmd.srd = 3 := by
    rw [heq]
    by_cases hp : p.pulsesPerPoint ≥ 5 <;>
      simp [hp, List.count_cons, List.count_append]
  have hcount_ori : (generate_commands p).count Cmd.ori = 2 := by
    rw [heq]
    by_cases hp : p.pulsesPerPoint ≥ 5 <;>
      simp [hp, List.count_cons, List.count_append]
  have hcount_loop : (generate_commands p).count Cmd.uartloop = 1 := by
    rw [heq]
    by_cases hp : p.pulsesPerPoint ≥ 5 <;>
      simp [hp, List.count_cons, List.count_append]
  have hsrd : (runCycle 3 oracle (generate_commands p)).srdCount = 3 := by
    show ((generate_commands p).foldl (cycleStep 3 oracle)
      (initCycleState 3)).srdCount = 3
    rw [foldl_srdCount_success 3 oracle hok (generate_commands p)
      (initCycleState 3) (by show 0 ≤ 3; omega), hcount_srd]
    rfl
  exact ⟨heq, hcount_ori, hcount_srd, hcount_loop,
    (runCycle_inv 3 oracle (generate_commands p)).2.1, hsrd⟩

/-- Witness for claim C8 at a concrete parameter set (pulses-per-point 10,
so the move+acquire pairs appear) with an always-successful acquisition. -/
theorem claim_C8_three_point_cycle_witness :
    generate_commands ⟨4, 0, 1, 2, 0, 196 / 10000, 10, 3⟩ =
      [Cmd.smpd 4, Cmd.ori, Cmd.sld 1 1, Cmd.wait 2, Cmd.mls 10, Cmd.srd,
       Cmd.mls 10, Cmd.srd, Cmd.mls 10, Cmd.srd, Cmd.wait 2, Cmd.ori,
       Cmd.uartloop, Cmd.wait 2] ∧
    (runCycle 3 (fun _ => some (List.replicate 1280 0))
      (generate_commands ⟨4, 0, 1, 2, 0, 196 / 10000, 10, 3⟩)).srdCount = 3 := by
  have h := claim_C8_three_point_cycle ⟨4, 0, 1, 2, 0, 196 / 10000, 10, 3⟩
    (fun _ => some (List.replicate 1280 0)) rfl rfl rfl rfl
    (fun _ => Option.some_ne_none _)
  refine ⟨?_, h.2.2.2.2.2⟩
  rw [h.1]
  norm_num

/-! ## Spectrum processing (data_processor.process_spectral_data and
spectrometer_controller.SpectrometerController.read_spectrum_single_no_base) -/

/-- Linear interpolation along consecutive points of a sorted axis (the
evaluation rule of scipy interp1d with kind linear), for arguments inside
the axis range; the two callers below handle the out-of-range cases (zero
fill or raise) themselves. -/
def interpSeg : List (ℚ × ℚ) → ℚ → ℚ
  | [], _ => 0
  | [(_, y0)], _ => y0
  | (x0, y0) :: (x1, y1) :: rest, x =>
    if x ≤ x1 then y0 + (y1 - y0) * ((x - x0) / (x1 - x0))
    else interpSeg ((x1, y1) :: rest) x

/-- Whether x lies inside the closed range spanned by the native axis. -/
def inRangeB (xs : List ℚ) (x : ℚ) : Bool :=
  match xs.head?, xs.getLast? with
  | some a, some b => decide (a ≤ x ∧ x ≤ b)
  | _, _ => false

/-- interp1d with bounds_error False and fill_value 0, as used in
process_spectral_data: canonical points outside the native range are filled
with zero rather than extrapolated. -/
def interpFill0 (wl col : List ℚ) (x : ℚ) : ℚ :=
  if inRangeB wl x then interpSeg (wl.zip col) x else 0

/-- The canonical wavelength axis of the per-cycle processing path:
np.arange(400, 960.5, 0.5), 1121 points from 400 to 960. -/
def newWavelengthsA : List ℚ :=
  (List.range 1121).map (fun k : ℕ => 400 + (k : ℚ) / 2)

/-- The canonical wavelength axis of the autoscaling spectrum path:
np.arange(400, 1000.5, 0.5), 1201 points from 400 to 1000. -/
def newWavelengthsB : List ℚ :=
  (List.range 1201).map (fun k : ℕ => 400 + (k : ℚ) / 2)

/-- The spectrum values at the canonical points whose wavelength falls in
the baseline band, both ends inclusive (the baseline mask). -/
def baselineSel (axis vals : List ℚ) (bs be : ℚ) : List ℚ :=
  ((axis.zip vals).filter (fun pr => decide (bs ≤ pr.1 ∧ pr.1 ≤ be))).map Prod.snd

/-- One column of data_processor.process_spectral_data: resample onto the
canonical axis with zero fill outside the native range, then subtract the
baseline-band mean from the whole column when the band holds at least one
canonical point, otherwise warn and pass the column through unmodified. -/
def processColumn (wl col : List ℚ) (bs be : ℚ) : List ℚ :=
  let interp := newWavelengthsA.map (interpFill0 wl col)
  let sel := baselineSel newWavelengthsA interp bs be
  if sel.isEmpty then interp
  else interp.map (fun v => v - sel.sum / (sel.length : ℚ))

/-- data_processor.process_spectral_data: resample and baseline-correct
every column of the per-cycle matrix. -/
def process_spectral_data (cols : List (List ℚ)) (wl : List ℚ) (bs be : ℚ) :
    List (List ℚ) :=
  cols.map (fun c => processColumn wl c bs be)

/-- The observable outcome of read_spectrum_single_no_base: interp1d with
its default bounds handling raises a ValueError when any canonical point
lies outside the native wavelength range (raised); a baseline band holding
no canonical point makes the pandas mean NaN and the subtraction turns the
whole spectrum into NaN (nanSpectrum); otherwise an ordinary
baseline-corrected spectrum is returned (ok). -/
inductive NoBaseResult where
  | raised
  | nanSpectrum
  | ok (s : List ℚ)
deriving DecidableEq

/-- SpectrometerController.read_spectrum_single_no_base, the autoscaling
spectrum path: resample onto the 400-1000 nm axis with interp1d in its
default configuration and subtract the pandas mean of the baseline-band
values. -/
def read_spectrum_single_no_base (wl raw : List ℚ) (bs be : ℚ) : NoBaseResult :=
  if newWavelengthsB.all (fun x => inRangeB wl x) then
    let s := newWavelengthsB.map (interpSeg (wl.zip raw))
    let sel := baselineSel newWavelengthsB s bs be
    if sel.isEmpty then .nanSpectrum
    else .ok (s.map (fun v => v - sel.sum / (sel.length : ℚ)))
  else .raised

theorem newWavelengthsB_mem_bounds (x : ℚ) (hx : x ∈ newWavelengthsB) :
    400 ≤ x ∧ x ≤ 1000 := by
  rw [newWavelengthsB] at hx
  obtain ⟨k, hkmem, hfk⟩ := List.mem_map.mp hx
  obtain rfl := hfk.symm
  have hk : k < 1201 := List.mem_range.mp hkmem
  have hk0 : (0 : ℚ) ≤ (k : ℚ) := by positivity
  have hk1 : (k : ℚ) ≤ 1200 := by
    have hkn : k ≤ 1200 := by omega
    exact_mod_cast hkn
  constructor <;> linarith

/-- Counterexample for claim C6: in the autoscaling spectrum path, with the
native axis spanning 0 to 2000 and a baseline band 1500-1600 containing no
canonical point (the canonical axis ends at 1000), the spectrum is not
passed through unmodified: the empty-band mean is NaN and the whole
spectrum is corrupted into NaN. -/
theorem claim_C6_counterexample :
    read_spectrum_single_no_base [0, 2000] [5, 5] 1500 1600 =
      NoBaseResult.nanSpectrum ∧
    read_spectrum_single_no_base [0, 2000] [5, 5] 1500 1600 ≠
      NoBaseResult.ok (newWavelengthsB.map (interpSeg ([(0 : ℚ), 2000].zip [5, 5]))) := by
  have hall : newWavelengthsB.all (fun x => inRangeB [0, 2000] x) = true := by
    rw [List.all_eq_true]
    intro x hx
    obtain ⟨hx1, hx2⟩ := newWavelengthsB_mem_bounds x hx
    show inRangeB [0, 2000] x = true
    rw [inRangeB]
    show decide ((0 : ℚ) ≤ x ∧ x ≤ 2000) = true
    rw [decide_eq_true_eq]
    constructor <;> linarith
  have hsel : baselineSel newWavelengthsB
      (newWavelengthsB.map (interpSeg ([(0 : ℚ), 2000].zip [5, 5]))) 1500 1600 = [] := by
    rw [baselineSel, List.map_eq_nil_iff, List.filter_eq_nil_iff]
    intro pr hpr
    have hmem := (List.of_mem_zip hpr).1
    obtain ⟨_, hb⟩ := newWavelengthsB_mem_bounds pr.1 hmem
    simp only [decide_eq_true_eq]
    rintro ⟨hlo, _⟩
    linarith
  have hres : read_spectrum_single_no_base [0, 2000] [5, 5] 1500 1600 =
      NoBaseResult.nanSpectrum := by
    rw [read_spectrum_single_no_base, if_pos hall]
    simp only [hsel, List.isEmpty_nil, if_pos]
  exact ⟨hres, by rw [hres]; intro h; cases h⟩

/-- Claim C6 (amended): in the per-cycle processing path
(process_spectral_data), canonical points outside the native wavelength
range are filled with zero rather than extrapolated, a baseline band
holding at least one canonical point (inclusive both ends) has its mean
subtracted from the entire column, and an empty band passes the column
through unmodified with a warning; the autoscaling spectrum path
(read_spectrum_single_no_base) instead raises when any canonical point
falls outside the native range, and an empty baseline band corrupts the
spectrum to NaN rather than passing it through. -/
theorem claim_C6_baseline_paths (wl col raw : List ℚ) (bs be x : ℚ) :
    (inRangeB wl x = false → interpFill0 wl col x = 0) ∧
    (baselineSel newWavelengthsA (newWavelengthsA.map (interpFill0 wl col)) bs be = [] →
      processColumn wl col bs be = newWavelengthsA.map (interpFill0 wl col)) ∧
    (baselineSel newWavelengthsA (newWavelengthsA.map (interpFill0 wl col)) bs be ≠ [] →
      processColumn wl col bs be =
        (newWavelengthsA.map (interpFill0 wl col)).map
          (fun v => v - (baselineSel newWavelengthsA
                (newWavelengthsA.map (interpFill0 wl col)) bs be).sum /
              ((baselineSel newWavelengthsA
                (newWavelengthsA.map (interpFill0 wl col)) bs be).length : ℚ))) ∧
    (newWavelengthsB.all (fun y => inRangeB wl y) = false →
      read_spectrum_single_no_base wl raw bs be = NoBaseResult.raised) ∧
    (newWavelengthsB.all (fun y => inRangeB wl y) = true →
      baselineSel newWavelengthsB
          (newWavelengthsB.map (interpSeg (wl.zip raw))) bs be = [] →
        read_spectrum_single_no_base wl raw bs be = NoBaseResult.nanSpectrum) := by
  refine ⟨fun h => ?_, fun h => ?_, fun h => ?_, fun h => ?_, fun h1 h2 => ?_⟩
  · rw [interpFill0, h]
    simp
  · rw [processColumn]
    simp only [h, List.isEmpty_nil, if_pos]
  · rw [processColumn]
    rw [if_neg (by simpa [List.isEmpty_iff] using h)]
  · rw [read_spectrum_single_no_base, if_neg (by simp [h])]
  · rw [read_spectrum_single_no_base, if_pos h1]
    simp only [h2, List.isEmpty_nil, if_pos]

/-- Witness for the amended claim C6: a canonical point left of a concrete
native axis is zero-filled in the per-cycle path, and a concrete matrix
with an in-band baseline is corrected column-wise. -/
theorem claim_C6_baseline_paths_witness :
    interpFill0 [500, 600] [1, 2] 100 = 0 := by
  exact (claim_C6_baseline_paths [500, 600] [1, 2] [] 950 960 100).1 (by rfl)
